import Mathlib

/-!
Verification of the network transport of `src/network_asio.hpp` (namespace
`network_asio`). The header in the sources declares the `connection` class and
gives inline bodies for `poll`, `done`, `using_tls`, the four byte-counter
accessors, the `error` wrapper and the full no-asio stub; the bodies of
`transfer`, the resolve/connect/handshake handlers and the read/write
completion conditions live in a translation unit that is not among the
sources, so those parts are modelled from the specification (spec.md §4-§7),
as marked on each definition.
-/

set_option maxHeartbeats 1000000

/-! ### Wire framing -/

/-- Modelled from the spec: a frame starts with a 4-byte unsigned length
prefix in fixed network byte order (big-endian, most significant byte
first); the serialization code of `connection::transfer` is not among the
sources. -/
def encodeLen32 (n : Nat) : List Nat :=
  [n / 2 ^ 24 % 256, n / 2 ^ 16 % 256, n / 2 ^ 8 % 256, n % 256]

/-- Modelled from the spec: decoding of the 4-byte big-endian length prefix
read by `connection::is_read_complete`, whose body is not among the
sources. -/
def decodeLen32 : List Nat → Nat
  | [a, b, c, d] => ((a * 256 + b) * 256 + c) * 256 + d
  | _ => 0

/-- Modelled from the spec: `connection::transfer` serializes a request into
a frame consisting of the 4-byte big-endian length prefix followed by exactly
that many payload bytes (spec.md §3, §4.2). -/
def mkFrame (payload : List Nat) : List Nat :=
  encodeLen32 payload.length ++ payload

/-! ### Error mapper (from the header) -/

namespace game

/-- Shallow embedding of `game::error` (declared in `exceptions.hpp`, used by
the header): an exception value carrying a human-readable message. -/
structure error where
  message : String
  deriving DecidableEq, Repr

end game

/-- Shallow embedding of `boost::system::error_code`: an error category, a
numeric value within the category, and the human-readable text rendered by
`message()`. -/
structure ErrorCode where
  cat : Nat
  val : Nat
  msg : String
  deriving DecidableEq, Repr

namespace network_asio

/-- Embedding of `network_asio::error` from `network_asio.hpp` lines 34-40:
the constructor forwards only `error.message()` to `game::error`; no other
component of the `boost::system::error_code` is stored. -/
def error (ec : ErrorCode) : game.error :=
  ⟨ec.msg⟩

end network_asio

/-- Outcome of one underlying `io_context_.poll()` call: either it completes
`n` handlers normally, or a handler throws a `boost::system::system_error`
carrying the given error code. -/
inductive PollOutcome where
  | ok (n : Nat)
  | sysErr (ec : ErrorCode)
  deriving DecidableEq, Repr

namespace connection

/-- Embedding of `connection::poll` from `network_asio.hpp` lines 58-69:
it returns the count from `io_context_.poll()`; a `system_error` whose code
equals `boost::asio::error::operation_aborted` (compared by category and
value, the first argument) is caught and counted as `1`; any other
`system_error` is rethrown as `network_asio::error`. -/
def poll (aborted : ErrorCode) : PollOutcome → Except game.error Nat
  | .ok n => .ok n
  | .sysErr ec =>
      if ec.cat = aborted.cat ∧ ec.val = aborted.val then .ok 1
      else .error (network_asio.error ec)

end connection

/-! ### Connection state machine

Modelled from the spec (spec.md §4.1-§4.5): the bodies of
`connection::transfer`, `handle_resolve`, `handle_connect`, `handshake`,
`handle_handshake`, `fallback_to_unencrypted`, `is_write_complete`,
`handle_write`, `is_read_complete` and `handle_read` are not among the
sources; only their declarations appear in `network_asio.hpp`. -/

/-- Error taxonomy of spec.md §7 for failures that terminate the
connection. -/
inductive ErrKind where
  | ResolutionError
  | ConnectionError
  | HandshakeProtocolError
  | EncryptionError
  | SizeLimitExceeded
  | IoError
  deriving DecidableEq, Repr

/-- Modelled from the spec: the states of the connection state machine of
spec.md §4.1. `connecting` holds the candidate endpoint currently being
tried and the remaining untried candidates, in resolver order. -/
inductive Status where
  | resolving
  | connecting (current : Nat) (rest : List Nat)
  | handshaking
  | tlsHandshaking
  | idle
  | writing
  | reading
  | cancelled
  | failed (k : ErrKind)
  deriving DecidableEq, Repr

/-- The socket variant: `utils::variant<raw_socket, tls_socket>` from
`network_asio.hpp` lines 133-141, plus the not-yet-populated state before the
handshake completes (spec.md §3: none is populated before the handshake
state is passed). -/
inductive Sock where
  | unset
  | plain
  | tls
  deriving DecidableEq, Repr

/-- Fixed per-connection constants the spec leaves to the implementation
(spec.md §9 open question): the two recognized 4-byte handshake tokens, the
maximum frame payload size, whether encryption is requested, and whether
fallback to plaintext is permitted. -/
structure NetConfig where
  tokAccepted : Nat
  tokPlaintext : Nat
  maxSize : Nat
  useTls : Bool
  fallbackAllowed : Bool
  deriving DecidableEq, Repr

/-- Modelled from the spec: the observable state of one `connection`.
`attempts` records every endpoint a connect was attempted to, in order;
`allocs` records the size of every receive buffer allocated for a response
payload; `writeCompleted`/`readCompleted` record whether the write (read) of
the transfer in flight has run to completion. -/
structure Conn where
  status : Status
  socket : Sock
  done_ : Bool
  bytesToWrite : Nat
  bytesWritten : Nat
  bytesToRead : Nat
  bytesRead : Nat
  attempts : List Nat
  allocs : List Nat
  writeCompleted : Bool
  readCompleted : Bool
  deriving DecidableEq, Repr

/-- The connection right after construction: resolution is starting, no
socket variant is populated, all four byte counters are zero
(`network_asio.hpp` lines 101-119 accessors; spec.md §3 lifecycle). -/
def initConn : Conn :=
  ⟨.resolving, .unset, false, 0, 0, 0, 0, [], [], false, false⟩

/-- Modelled from the spec: the events delivered to the connection by the
event loop (completion of one asynchronous step, spec.md §5 suspension
points) or by the caller (`transfer`, `cancel`). -/
inductive Event where
  | resolved (results : List Nat)
  | resolveError
  | connectOk
  | connectRefused
  | handshakeReply (tok : Nat)
  | tlsOk
  | tlsFailed
  | startTransfer (request : List Nat)
  | writeProgress (n : Nat)
  | readHeader (advertised : Nat)
  | readProgress (n : Nat)
  | cancelEv
  | ioError
  deriving DecidableEq, Repr

/-- Modelled from the spec: one transition of the connection state machine
(spec.md §4.1-§4.3). `cancelled` and `failed` are terminal; `cancel()`
moves any non-terminal state to `cancelled`; a generic I/O error moves any
non-terminal state to `failed IoError`. A transfer sets `bytes_to_write` to
the frame size and loops over partial writes until the counters meet; the
read phase reads exactly 4 header bytes, rejects an advertised payload above
the maximum before allocating its buffer, then reads exactly that many
bytes. -/
def step (cfg : NetConfig) (s : Conn) (e : Event) : Conn :=
  match s.status, e with
  | .cancelled, _ => s
  | .failed _, _ => s
  | _, .cancelEv => { s with status := .cancelled }
  | _, .ioError => { s with status := .failed .IoError }
  | .resolving, .resolved [] => { s with status := .failed .ResolutionError }
  | .resolving, .resolved (c :: rest) =>
      { s with status := .connecting c rest, attempts := s.attempts ++ [c] }
  | .resolving, .resolveError => { s with status := .failed .ResolutionError }
  | .connecting _ _, .connectOk => { s with status := .handshaking }
  | .connecting _ [], .connectRefused => { s with status := .failed .ConnectionError }
  | .connecting _ (c :: rest), .connectRefused =>
      { s with status := .connecting c rest, attempts := s.attempts ++ [c] }
  | .handshaking, .handshakeReply tok =>
      if tok = cfg.tokAccepted ∧ cfg.useTls = true then
        { s with status := .tlsHandshaking }
      else if tok = cfg.tokAccepted ∨ tok = cfg.tokPlaintext then
        { s with status := .idle, socket := .plain, done_ := true }
      else
        { s with status := .failed .HandshakeProtocolError }
  | .tlsHandshaking, .tlsOk => { s with status := .idle, socket := .tls, done_ := true }
  | .tlsHandshaking, .tlsFailed =>
      if cfg.fallbackAllowed = true then
        { s with status := .idle, socket := .plain, done_ := true }
      else
        { s with status := .failed .EncryptionError }
  | .idle, .startTransfer req =>
      { s with status := .writing, done_ := false,
               bytesToWrite := (mkFrame req).length, bytesWritten := 0,
               bytesToRead := 0, bytesRead := 0,
               writeCompleted := false, readCompleted := false }
  | .writing, .writeProgress n =>
      if s.bytesWritten + n < s.bytesToWrite then
        { s with bytesWritten := s.bytesWritten + n }
      else
        { s with bytesWritten := s.bytesToWrite, writeCompleted := true,
                 status := .reading, bytesToRead := 4, bytesRead := 0 }
  | .reading, .readHeader adv =>
      if s.bytesToRead ≠ 4 then s
      else if cfg.maxSize < adv then
        { s with bytesRead := 4, status := .failed .SizeLimitExceeded }
      else if adv = 0 then
        { s with bytesRead := 4, allocs := s.allocs ++ [adv],
                 readCompleted := true, status := .idle, done_ := true }
      else
        { s with bytesRead := 4, bytesToRead := 4 + adv, allocs := s.allocs ++ [adv] }
  | .reading, .readProgress n =>
      if s.bytesToRead = 4 then s
      else if s.bytesRead + n < s.bytesToRead then
        { s with bytesRead := s.bytesRead + n }
      else
        { s with bytesRead := s.bytesToRead, readCompleted := true,
                 status := .idle, done_ := true }
  | _, _ => s

/-- Folding a sequence of events through the state machine. -/
def steps (cfg : NetConfig) (s : Conn) (es : List Event) : Conn :=
  es.foldl (step cfg) s

/-- A state the connection can actually be in: produced from the freshly
constructed connection by some sequence of events. -/
def Reachable (cfg : NetConfig) (s : Conn) : Prop :=
  ∃ es : List Event, steps cfg initConn es = s

/-- Embedding of `connection::done` from `network_asio.hpp` lines 84-87. -/
def done (s : Conn) : Bool :=
  s.done_

/-- Embedding of `connection::using_tls` from `network_asio.hpp` lines 90-99
(the `HAVE_OPENSSL` build): `assert(done_)` then
`utils::holds_alternative<tls_socket>(socket_)`. The `none` result models the
assertion firing when the precondition `done()` does not hold. -/
def using_tls (s : Conn) : Option Bool :=
  if s.done_ = true then some (decide (s.socket = Sock.tls)) else none

/-! ### Invariants and helper lemmas -/

/-- The connection phases before the handshake has completed: no socket
variant is active and `done()` cannot yet hold (spec.md §3 invariants). -/
def isPreHandshake : Status → Bool
  | .resolving => true
  | .connecting _ _ => true
  | .handshaking => true
  | .tlsHandshaking => true
  | _ => false

/-- The phases at or after handshake completion, including the terminal
ones: the socket variant and the list of connect attempts are fixed from
here on (spec.md §4.3: fallback reuses the same already-open transport, no
reconnection). -/
def isPostHandshake : Status → Bool
  | .idle => true
  | .writing => true
  | .reading => true
  | .cancelled => true
  | .failed _ => true
  | _ => false

/-- A state with an asynchronous operation in flight (every non-terminal
phase except `idle`, spec.md §5 suspension points). -/
def isInFlight : Status → Bool
  | .resolving => true
  | .connecting _ _ => true
  | .handshaking => true
  | .tlsHandshaking => true
  | .writing => true
  | .reading => true
  | _ => false

/-- State invariant of the machine: the byte counters never overshoot their
targets, an in-flight write or read is strictly incomplete, a completed
write or read has met its target exactly, `done()` is false before the
handshake has concluded and after a handshake protocol failure, and every
receive buffer ever allocated respects the maximum frame payload size. -/
def ConnInv (cfg : NetConfig) (s : Conn) : Prop :=
  s.bytesWritten ≤ s.bytesToWrite ∧
  s.bytesRead ≤ s.bytesToRead ∧
  (s.status = .writing → s.bytesWritten < s.bytesToWrite ∧ s.readCompleted = false) ∧
  (s.status = .reading → s.bytesRead < s.bytesToRead ∧ s.readCompleted = false) ∧
  (s.writeCompleted = true → s.bytesWritten = s.bytesToWrite) ∧
  (s.readCompleted = true → s.bytesRead = s.bytesToRead) ∧
  (isPreHandshake s.status = true → s.done_ = false) ∧
  (s.status = .failed .HandshakeProtocolError → s.done_ = false) ∧
  (∀ a ∈ s.allocs, a ≤ cfg.maxSize)

theorem ConnInv_initConn (cfg : NetConfig) : ConnInv cfg initConn := by
  simp [ConnInv, initConn, isPreHandshake]

theorem ConnInv_step (cfg : NetConfig) (s : Conn) (e : Event) (h : ConnInv cfg s) :
    ConnInv cfg (step cfg s e) := by
  obtain ⟨st, sock, dn, btw, bw, btr, br, att, al, wc, rc⟩ := s
  obtain ⟨hw, hr, hwr, hrd, hwc, hrc, hpre, hhse, hal⟩ := h
  simp only [ConnInv]
  rcases st <;> rcases e
  all_goals (simp only [step]; repeat' split)
  all_goals (simp_all [isPreHandshake, mkFrame, encodeLen32])
  all_goals try omega
  all_goals try (cases wc <;> cases rc <;> simp_all <;> omega)
  all_goals try (refine ⟨by omega, ?_⟩)
  all_goals (rintro a (ha | rfl) <;> first | (exact hal a ha) | omega)

theorem ConnInv_steps (cfg : NetConfig) (es : List Event) (s : Conn) (h : ConnInv cfg s) :
    ConnInv cfg (steps cfg s es) := by
  induction es generalizing s with
  | nil => exact h
  | cons e es ih => exact ih (step cfg s e) (ConnInv_step cfg s e h)

/-- Every reachable state of the connection satisfies the machine
invariant. -/
theorem ConnInv_reachable (cfg : NetConfig) (s : Conn) (h : Reachable cfg s) :
    ConnInv cfg s := by
  obtain ⟨es, rfl⟩ := h
  exact ConnInv_steps cfg es initConn (ConnInv_initConn cfg)

/-- The `cancelled` and `failed` states are terminal: no event changes
them. -/
theorem step_terminal (cfg : NetConfig) (s : Conn) (e : Event)
    (h : s.status = .cancelled ∨ ∃ k, s.status = .failed k) :
    step cfg s e = s := by
  obtain ⟨st, sock, dn, btw, bw, btr, br, att, al, wc, rc⟩ := s
  rcases h with h | ⟨k, h⟩ <;> simp only at h <;> subst h <;> rcases e <;> rfl

theorem steps_terminal (cfg : NetConfig) (s : Conn) (es : List Event)
    (h : s.status = .cancelled ∨ ∃ k, s.status = .failed k) :
    steps cfg s es = s := by
  induction es with
  | nil => rfl
  | cons e es ih => simp only [steps, List.foldl_cons, step_terminal cfg s e h]; exact ih

/-- Once the handshake phase is over, no event changes the socket variant or
adds a connect attempt, and the machine never re-enters a pre-handshake
phase: all later traffic uses the socket chosen at handshake completion over
the transport already connected (no reconnection). -/
theorem step_postHandshake (cfg : NetConfig) (s : Conn) (e : Event)
    (h : isPostHandshake s.status = true) :
    isPostHandshake (step cfg s e).status = true ∧
    (step cfg s e).socket = s.socket ∧
    (step cfg s e).attempts = s.attempts := by
  obtain ⟨st, sock, dn, btw, bw, btr, br, att, al, wc, rc⟩ := s
  rcases st <;> simp_all [isPostHandshake] <;> rcases e <;>
    (simp only [step]; repeat' split) <;> simp_all [isPostHandshake]

theorem steps_postHandshake (cfg : NetConfig) (es : List Event) (s : Conn)
    (h : isPostHandshake s.status = true) :
    isPostHandshake (steps cfg s es).status = true ∧
    (steps cfg s es).socket = s.socket ∧
    (steps cfg s es).attempts = s.attempts := by
  induction es generalizing s with
  | nil => exact ⟨h, rfl, rfl⟩
  | cons e es ih =>
      obtain ⟨h1, h2, h3⟩ := step_postHandshake cfg s e h
      obtain ⟨g1, g2, g3⟩ := ih (step cfg s e) h1
      exact ⟨g1, g2.trans h2, g3.trans h3⟩

/-! ### Framing lemmas -/

theorem mkFrame_length (payload : List Nat) :
    (mkFrame payload).length = 4 + payload.length := by
  simp [mkFrame, encodeLen32]
  omega

theorem decodeLen32_encodeLen32 (n : Nat) (h : n < 2 ^ 32) :
    decodeLen32 (encodeLen32 n) = n := by
  simp only [encodeLen32, decodeLen32]
  omega

/-- Applying a write-progress event to a state that is no longer writing
leaves the state unchanged. -/
theorem step_writeProgress_reading (cfg : NetConfig) (s : Conn) (n : Nat)
    (h : s.status = .reading) : step cfg s (.writeProgress n) = s := by
  obtain ⟨st, sock, dn, btw, bw, btr, br, att, al, wc, rc⟩ := s
  simp only at h
  subst h
  rfl

theorem steps_writeProgress_reading (cfg : NetConfig) (cs : List Nat) (s : Conn)
    (h : s.status = .reading) : steps cfg s (cs.map .writeProgress) = s := by
  induction cs with
  | nil => rfl
  | cons c cs ih =>
      simp only [List.map_cons, steps, List.foldl_cons,
        step_writeProgress_reading cfg s c h]
      exact ih

/-- The write loop of `transfer`: from a writing state, any sequence of
partial writes that each make progress and are numerous enough drives
`bytes_written` up to `bytes_to_write` exactly, marking the write
complete. -/
theorem writeProgress_run (cfg : NetConfig) (cs : List Nat) (s : Conn)
    (hst : s.status = .writing) (hlt : s.bytesWritten < s.bytesToWrite)
    (hpos : ∀ c ∈ cs, 1 ≤ c) (hlen : s.bytesToWrite ≤ s.bytesWritten + cs.length) :
    (steps cfg s (cs.map .writeProgress)).bytesToWrite = s.bytesToWrite ∧
    (steps cfg s (cs.map .writeProgress)).bytesWritten = s.bytesToWrite ∧
    (steps cfg s (cs.map .writeProgress)).writeCompleted = true := by
  induction cs generalizing s with
  | nil => simp at hlen; omega
  | cons c cs ih =>
      obtain ⟨st, sock, dn, btw, bw, btr, br, att, al, wc, rc⟩ := s
      simp only at hst hlt hlen ⊢
      subst hst
      by_cases hc : bw + c < btw
      · have hstep : step cfg
            ⟨.writing, sock, dn, btw, bw, btr, br, att, al, wc, rc⟩
            (.writeProgress c) =
            ⟨.writing, sock, dn, btw, bw + c, btr, br, att, al, wc, rc⟩ := by
          simp [step, hc]
        have hc1 : 1 ≤ c := hpos c (List.mem_cons_self c cs)
        simp only [List.map_cons, steps, List.foldl_cons, hstep]
        have := ih ⟨.writing, sock, dn, btw, bw + c, btr, br, att, al, wc, rc⟩
          rfl hc (fun x hx => hpos x (List.mem_cons_of_mem c hx)) (by simp; simp at hlen; omega)
        simpa [steps] using this
      · have hstep : step cfg
            ⟨.writing, sock, dn, btw, bw, btr, br, att, al, wc, rc⟩
            (.writeProgress c) =
            ⟨.reading, sock, dn, btw, btw, 4, 0, att, al, true, rc⟩ := by
          simp [step, hc]
        simp only [List.map_cons, steps, List.foldl_cons, hstep]
        have hnoop := steps_writeProgress_reading cfg cs
          ⟨.reading, sock, dn, btw, btw, 4, 0, att, al, true, rc⟩ rfl
        simp only [steps] at hnoop
        simp [hnoop]

/-! ### Concrete instances used to evaluate the theorems -/

/-- A concrete configuration: handshake tokens 1 (encryption accepted) and 2
(plaintext only), maximum frame payload size 100, encryption requested,
fallback permitted. -/
def cfg0 : NetConfig := ⟨1, 2, 100, true, true⟩

/-- A concrete connection sitting idle after a plaintext handshake. -/
def idleConn : Conn := ⟨.idle, .plain, true, 0, 0, 0, 0, [7], [], false, false⟩

/-! ### C1 -/

/-- C1: for every request payload of length L, `transfer` serializes it as a
4-byte big-endian length prefix followed by the payload, so the frame is
exactly `4 + L` bytes; driving the write loop with any sequence of
progressing partial writes ends with `bytes_written == bytes_to_write ==
4 + L` and the write marked complete. -/
theorem transfer_writes_frame_completely (cfg : NetConfig) (s : Conn)
    (req sched : List Nat) (hidle : s.status = .idle)
    (hpos : ∀ c ∈ sched, 1 ≤ c) (hlen : 4 + req.length ≤ sched.length)
    (hsize : req.length < 2 ^ 32) :
    mkFrame req = encodeLen32 req.length ++ req ∧
    (mkFrame req).length = 4 + req.length ∧
    decodeLen32 (encodeLen32 req.length) = req.length ∧
    (∀ b ∈ encodeLen32 req.length, b < 256) ∧
    (steps cfg (step cfg s (.startTransfer req)) (sched.map .writeProgress)).bytesToWrite
        = 4 + req.length ∧
    (steps cfg (step cfg s (.startTransfer req)) (sched.map .writeProgress)).bytesWritten
        = (steps cfg (step cfg s (.startTransfer req)) (sched.map .writeProgress)).bytesToWrite ∧
    (steps cfg (step cfg s (.startTransfer req)) (sched.map .writeProgress)).writeCompleted
        = true := by
  obtain ⟨st, sock, dn, btw, bw, btr, br, att, al, wc, rc⟩ := s
  simp only at hidle
  subst hidle
  have hstep : step cfg ⟨.idle, sock, dn, btw, bw, btr, br, att, al, wc, rc⟩
      (.startTransfer req) =
      ⟨.writing, sock, false, (mkFrame req).length, 0, 0, 0, att, al, false, false⟩ := rfl
  have hfl : (mkFrame req).length = 4 + req.length := mkFrame_length req
  have hrun := writeProgress_run cfg sched
    ⟨.writing, sock, false, (mkFrame req).length, 0, 0, 0, att, al, false, false⟩
    rfl (by simp [hfl]) hpos (by simp [hfl]; omega)
  simp only [hstep]
  refine ⟨rfl, hfl, decodeLen32_encodeLen32 req.length hsize, ?_, ?_, ?_, ?_⟩
  · simp only [encodeLen32, List.mem_cons, List.not_mem_nil, or_false]
    rintro b (rfl | rfl | rfl | rfl) <;> omega
  · rw [hrun.1, hfl]
  · rw [hrun.2.1, hrun.1]
  · exact hrun.2.2

/-- Witness for C1 at a concrete input: a 2-byte request written in six
1-byte chunks. -/
theorem transfer_writes_frame_completely_witness :
    mkFrame [5, 6] = encodeLen32 2 ++ [5, 6] ∧
    (mkFrame [5, 6]).length = 4 + 2 ∧
    decodeLen32 (encodeLen32 2) = 2 ∧
    (∀ b ∈ encodeLen32 2, b < 256) ∧
    (steps cfg0 (step cfg0 idleConn (.startTransfer [5, 6]))
        ([1, 1, 1, 1, 1, 1].map .writeProgress)).bytesToWrite = 4 + 2 ∧
    (steps cfg0 (step cfg0 idleConn (.startTransfer [5, 6]))
        ([1, 1, 1, 1, 1, 1].map .writeProgress)).bytesWritten
      = (steps cfg0 (step cfg0 idleConn (.startTransfer [5, 6]))
        ([1, 1, 1, 1, 1, 1].map .writeProgress)).bytesToWrite ∧
    (steps cfg0 (step cfg0 idleConn (.startTransfer [5, 6]))
        ([1, 1, 1, 1, 1, 1].map .writeProgress)).writeCompleted = true := by
  have h := transfer_writes_frame_completely cfg0 idleConn [5, 6] [1, 1, 1, 1, 1, 1]
    rfl (by decide) (by decide) (by decide)
  simpa using h

/-! ### C2 -/

/-- C2: when the peer advertises a response length above the fixed maximum,
the read phase fails with `SizeLimitExceeded` without allocating a receive
buffer for it — the advertised size never appears among the buffer
allocations of any reachable successor — and the failure is fatal: the
connection never leaves the failed state. -/
theorem oversized_response_rejected_without_alloc (cfg : NetConfig) (s : Conn)
    (adv : Nat) (hreach : Reachable cfg s) (hst : s.status = .reading)
    (hhdr : s.bytesToRead = 4) (hbig : cfg.maxSize < adv) :
    (step cfg s (.readHeader adv)).status = .failed .SizeLimitExceeded ∧
    (step cfg s (.readHeader adv)).allocs = s.allocs ∧
    adv ∉ (step cfg s (.readHeader adv)).allocs ∧
    ∀ es, steps cfg (step cfg s (.readHeader adv)) es = step cfg s (.readHeader adv) := by
  have hinv := ConnInv_reachable cfg s hreach
  have hal : ∀ a ∈ s.allocs, a ≤ cfg.maxSize := hinv.2.2.2.2.2.2.2.2
  obtain ⟨st, sock, dn, btw, bw, btr, br, att, al, wc, rc⟩ := s
  simp only at hst hhdr
  subst hst
  subst hhdr
  have hstep : step cfg ⟨.reading, sock, dn, btw, bw, 4, br, att, al, wc, rc⟩
      (.readHeader adv) =
      ⟨.failed .SizeLimitExceeded, sock, dn, btw, bw, 4, 4, att, al, wc, rc⟩ := by
    simp [step, hbig]
  rw [hstep]
  refine ⟨rfl, rfl, ?_, ?_⟩
  · intro hmem
    exact absurd (hal adv hmem) (by omega)
  · intro es
    exact steps_terminal cfg _ es (Or.inr ⟨.SizeLimitExceeded, rfl⟩)

/-- Witness for C2: a connection that has just finished writing an empty
request receives an advertised response length of 101, above the maximum of
100. -/
theorem oversized_response_rejected_without_alloc_witness :
    (step cfg0 (steps cfg0 initConn
        [.resolved [7], .connectOk, .handshakeReply 2, .startTransfer [], .writeProgress 4])
        (.readHeader 101)).status = .failed .SizeLimitExceeded ∧
    (step cfg0 (steps cfg0 initConn
        [.resolved [7], .connectOk, .handshakeReply 2, .startTransfer [], .writeProgress 4])
        (.readHeader 101)).allocs = (steps cfg0 initConn
        [.resolved [7], .connectOk, .handshakeReply 2, .startTransfer [], .writeProgress 4]).allocs ∧
    101 ∉ (step cfg0 (steps cfg0 initConn
        [.resolved [7], .connectOk, .handshakeReply 2, .startTransfer [], .writeProgress 4])
        (.readHeader 101)).allocs ∧
    steps cfg0 (step cfg0 (steps cfg0 initConn
        [.resolved [7], .connectOk, .handshakeReply 2, .startTransfer [], .writeProgress 4])
        (.readHeader 101)) [.startTransfer [1]] =
      step cfg0 (steps cfg0 initConn
        [.resolved [7], .connectOk, .handshakeReply 2, .startTransfer [], .writeProgress 4])
        (.readHeader 101) := by
  have h := oversized_response_rejected_without_alloc cfg0
    (steps cfg0 initConn
      [.resolved [7], .connectOk, .handshakeReply 2, .startTransfer [], .writeProgress 4])
    101 ⟨_, rfl⟩ (by decide) (by decide) (by decide)
  exact ⟨h.1, h.2.1, h.2.2.1, h.2.2.2 [.startTransfer [1]]⟩

/-! ### C3 -/

/-- C3: a 4-byte handshake reply that is neither the encryption-accepted
token nor the plaintext-only token makes the connection fail with
`HandshakeProtocolError`, and `done()` never becomes true on any
continuation of that trace. -/
theorem unknown_handshake_token_fails (cfg : NetConfig) (s : Conn) (tok : Nat)
    (hreach : Reachable cfg s) (hst : s.status = .handshaking)
    (ha : tok ≠ cfg.tokAccepted) (hp : tok ≠ cfg.tokPlaintext) :
    (step cfg s (.handshakeReply tok)).status = .failed .HandshakeProtocolError ∧
    ∀ es, (steps cfg (step cfg s (.handshakeReply tok)) es).done_ = false := by
  have hinv := ConnInv_reachable cfg s hreach
  have hdn : s.done_ = false := hinv.2.2.2.2.2.2.1 (by
    obtain ⟨st, sock, dn, btw, bw, btr, br, att, al, wc, rc⟩ := s
    simp only at hst
    subst hst
    rfl)
  obtain ⟨st, sock, dn, btw, bw, btr, br, att, al, wc, rc⟩ := s
  simp only at hst hdn
  subst hst
  subst hdn
  have hstep : step cfg ⟨.handshaking, sock, false, btw, bw, btr, br, att, al, wc, rc⟩
      (.handshakeReply tok) =
      ⟨.failed .HandshakeProtocolError, sock, false, btw, bw, btr, br, att, al, wc, rc⟩ := by
    simp [step, ha, hp]
  rw [hstep]
  refine ⟨rfl, fun es => ?_⟩
  rw [steps_terminal cfg _ es (Or.inr ⟨.HandshakeProtocolError, rfl⟩)]

/-- Witness for C3: the server replies with token 3, which is neither 1
(accepted) nor 2 (plaintext-only). -/
theorem unknown_handshake_token_fails_witness :
    (step cfg0 (steps cfg0 initConn [.resolved [7], .connectOk])
        (.handshakeReply 3)).status = .failed .HandshakeProtocolError ∧
    (steps cfg0 (step cfg0 (steps cfg0 initConn [.resolved [7], .connectOk])
        (.handshakeReply 3)) [.tlsOk, .startTransfer [1]]).done_ = false := by
  have h := unknown_handshake_token_fails cfg0
    (steps cfg0 initConn [.resolved [7], .connectOk]) 3 ⟨_, rfl⟩
    (by decide) (by decide) (by decide)
  exact ⟨h.1, h.2 [.tlsOk, .startTransfer [1]]⟩

/-! ### C4 -/

/-- C4: from the handshaking state, if the reply is the encryption-accepted
token (with encryption requested) and the encryption handshake then
succeeds, the connection is done and `using_tls()` reports true; if the
reply is plaintext-only, or encryption was not requested, the connection is
done with the plaintext socket active, `using_tls()` reports false, and on
every continuation of the trace the socket never becomes the encrypted
variant and no further connect attempt is made — all subsequent frames ride
the same already-open transport. -/
theorem tls_negotiation_outcome (cfg : NetConfig) (s : Conn) (tok : Nat)
    (hdis : cfg.tokAccepted ≠ cfg.tokPlaintext) (hst : s.status = .handshaking) :
    (cfg.useTls = true →
      (steps cfg s [.handshakeReply cfg.tokAccepted, .tlsOk]).done_ = true ∧
      using_tls (steps cfg s [.handshakeReply cfg.tokAccepted, .tlsOk]) = some true) ∧
    ((tok = cfg.tokPlaintext ∨ (cfg.useTls = false ∧ tok = cfg.tokAccepted)) →
      (step cfg s (.handshakeReply tok)).done_ = true ∧
      using_tls (step cfg s (.handshakeReply tok)) = some false ∧
      (step cfg s (.handshakeReply tok)).socket = .plain ∧
      ∀ es, (steps cfg (step cfg s (.handshakeReply tok)) es).socket ≠ .tls ∧
            (steps cfg (step cfg s (.handshakeReply tok)) es).attempts
              = (step cfg s (.handshakeReply tok)).attempts) := by
  obtain ⟨st, sock, dn, btw, bw, btr, br, att, al, wc, rc⟩ := s
  simp only at hst
  subst hst
  constructor
  · intro huse
    have h1 : step cfg ⟨.handshaking, sock, dn, btw, bw, btr, br, att, al, wc, rc⟩
        (.handshakeReply cfg.tokAccepted) =
        ⟨.tlsHandshaking, sock, dn, btw, bw, btr, br, att, al, wc, rc⟩ := by
      simp [step, huse]
    have h2 : step cfg ⟨.tlsHandshaking, sock, dn, btw, bw, btr, br, att, al, wc, rc⟩
        .tlsOk = ⟨.idle, .tls, true, btw, bw, btr, br, att, al, wc, rc⟩ := rfl
    simp only [steps, List.foldl_cons, List.foldl_nil, h1, h2]
    simp [using_tls]
  · intro htok
    have hcond1 : ¬(tok = cfg.tokAccepted ∧ cfg.useTls = true) := by
      rcases htok with h | ⟨h1, h2⟩
      · rintro ⟨rfl, -⟩; exact hdis h
      · rintro ⟨-, hu⟩; rw [h1] at hu; cases hu
    have hcond2 : tok = cfg.tokAccepted ∨ tok = cfg.tokPlaintext := by
      rcases htok with h | ⟨h1, h2⟩
      · exact Or.inr h
      · exact Or.inl h2
    have h1 : step cfg ⟨.handshaking, sock, dn, btw, bw, btr, br, att, al, wc, rc⟩
        (.handshakeReply tok) =
        ⟨.idle, .plain, true, btw, bw, btr, br, att, al, wc, rc⟩ := by
      simp [step, hcond1, hcond2]
    rw [h1]
    refine ⟨rfl, rfl, rfl, fun es => ?_⟩
    have hpost := steps_postHandshake cfg es
      ⟨.idle, .plain, true, btw, bw, btr, br, att, al, wc, rc⟩ rfl
    refine ⟨?_, hpost.2.2⟩
    rw [hpost.2.1]
    intro hcontra
    cases hcontra

/-- Witness for C4 under the concrete configuration: token 1 accepted with a
successful encryption handshake gives `using_tls = true`; token 2 gives the
plaintext fallback, and after a further transfer begins the socket is still
not the encrypted variant. -/
theorem tls_negotiation_outcome_witness :
    ((steps cfg0 (steps cfg0 initConn [.resolved [7], .connectOk])
        [.handshakeReply cfg0.tokAccepted, .tlsOk]).done_ = true ∧
      using_tls (steps cfg0 (steps cfg0 initConn [.resolved [7], .connectOk])
        [.handshakeReply cfg0.tokAccepted, .tlsOk]) = some true) ∧
    ((step cfg0 (steps cfg0 initConn [.resolved [7], .connectOk])
        (.handshakeReply 2)).done_ = true ∧
      using_tls (step cfg0 (steps cfg0 initConn [.resolved [7], .connectOk])
        (.handshakeReply 2)) = some false ∧
      (step cfg0 (steps cfg0 initConn [.resolved [7], .connectOk])
        (.handshakeReply 2)).socket = .plain ∧
      (steps cfg0 (step cfg0 (steps cfg0 initConn [.resolved [7], .connectOk])
        (.handshakeReply 2)) [.startTransfer [1], .writeProgress 9]).socket ≠ .tls ∧
      (steps cfg0 (step cfg0 (steps cfg0 initConn [.resolved [7], .connectOk])
        (.handshakeReply 2)) [.startTransfer [1], .writeProgress 9]).attempts
        = (step cfg0 (steps cfg0 initConn [.resolved [7], .connectOk])
          (.handshakeReply 2)).attempts) := by
  have h := tls_negotiation_outcome cfg0
    (steps cfg0 initConn [.resolved [7], .connectOk]) 2 (by decide) (by decide)
  have ha := h.1 rfl
  have hb := h.2 (Or.inl rfl)
  exact ⟨⟨ha.1, ha.2⟩, hb.1, hb.2.1, hb.2.2.1,
    (hb.2.2.2 [.startTransfer [1], .writeProgress 9]).1,
    (hb.2.2.2 [.startTransfer [1], .writeProgress 9]).2⟩

/-! ### C5 -/

/-- C5 counterexample: a reachable state in the middle of writing a request
where `bytes_read = bytes_to_read` (both zero, reset by `transfer`) although
the response read has not completed — it has not even begun — so equality of
the read counters does not hold exactly when the read has completed. -/
theorem counters_equality_without_completion :
    Reachable cfg0 (steps cfg0 initConn
      [.resolved [7], .connectOk, .handshakeReply 2, .startTransfer [9, 9, 9]]) ∧
    (steps cfg0 initConn
      [.resolved [7], .connectOk, .handshakeReply 2, .startTransfer [9, 9, 9]]).status
      = .writing ∧
    (steps cfg0 initConn
      [.resolved [7], .connectOk, .handshakeReply 2, .startTransfer [9, 9, 9]]).bytesRead
      = (steps cfg0 initConn
      [.resolved [7], .connectOk, .handshakeReply 2, .startTransfer [9, 9, 9]]).bytesToRead ∧
    (steps cfg0 initConn
      [.resolved [7], .connectOk, .handshakeReply 2, .startTransfer [9, 9, 9]]).readCompleted
      = false :=
  ⟨⟨_, rfl⟩, by decide, by decide, by decide⟩

/-- C5 as amended: at every reachable state `bytes_written ≤ bytes_to_write`
and `bytes_read ≤ bytes_to_read`; while a write (read) is in flight the
corresponding counters are strictly apart, and when the operation has
completed they are equal. Equality alone does not imply completion: it also
holds before the operation has started (see the counterexample). -/
theorem byte_counter_invariants (cfg : NetConfig) (s : Conn) (h : Reachable cfg s) :
    s.bytesWritten ≤ s.bytesToWrite ∧
    s.bytesRead ≤ s.bytesToRead ∧
    (s.status = .writing → s.bytesWritten < s.bytesToWrite) ∧
    (s.status = .reading → s.bytesRead < s.bytesToRead) ∧
    (s.writeCompleted = true → s.bytesWritten = s.bytesToWrite) ∧
    (s.readCompleted = true → s.bytesRead = s.bytesToRead) := by
  have hinv := ConnInv_reachable cfg s h
  exact ⟨hinv.1, hinv.2.1, fun hw => (hinv.2.2.1 hw).1, fun hr => (hinv.2.2.2.1 hr).1,
    hinv.2.2.2.2.1, hinv.2.2.2.2.2.1⟩

/-- Witness for C5 (amended) at a concrete reachable state: mid-write after
one partial write of 2 of the 5 frame bytes. -/
theorem byte_counter_invariants_witness :
    (steps cfg0 initConn
      [.resolved [7], .connectOk, .handshakeReply 2, .startTransfer [9],
       .writeProgress 2]).bytesWritten
      ≤ (steps cfg0 initConn
      [.resolved [7], .connectOk, .handshakeReply 2, .startTransfer [9],
       .writeProgress 2]).bytesToWrite ∧
    (steps cfg0 initConn
      [.resolved [7], .connectOk, .handshakeReply 2, .startTransfer [9],
       .writeProgress 2]).bytesRead
      ≤ (steps cfg0 initConn
      [.resolved [7], .connectOk, .handshakeReply 2, .startTransfer [9],
       .writeProgress 2]).bytesToRead ∧
    ((steps cfg0 initConn
      [.resolved [7], .connectOk, .handshakeReply 2, .startTransfer [9],
       .writeProgress 2]).status = .writing →
      (steps cfg0 initConn
      [.resolved [7], .connectOk, .handshakeReply 2, .startTransfer [9],
       .writeProgress 2]).bytesWritten
      < (steps cfg0 initConn
      [.resolved [7], .connectOk, .handshakeReply 2, .startTransfer [9],
       .writeProgress 2]).bytesToWrite) ∧
    ((steps cfg0 initConn
      [.resolved [7], .connectOk, .handshakeReply 2, .startTransfer [9],
       .writeProgress 2]).status = .reading →
      (steps cfg0 initConn
      [.resolved [7], .connectOk, .handshakeReply 2, .startTransfer [9],
       .writeProgress 2]).bytesRead
      < (steps cfg0 initConn
      [.resolved [7], .connectOk, .handshakeReply 2, .startTransfer [9],
       .writeProgress 2]).bytesToRead) ∧
    ((steps cfg0 initConn
      [.resolved [7], .connectOk, .handshakeReply 2, .startTransfer [9],
       .writeProgress 2]).writeCompleted = true →
      (steps cfg0 initConn
      [.resolved [7], .connectOk, .handshakeReply 2, .startTransfer [9],
       .writeProgress 2]).bytesWritten
      = (steps cfg0 initConn
      [.resolved [7], .connectOk, .handshakeReply 2, .startTransfer [9],
       .writeProgress 2]).bytesToWrite) ∧
    ((steps cfg0 initConn
      [.resolved [7], .connectOk, .handshakeReply 2, .startTransfer [9],
       .writeProgress 2]).readCompleted = true →
      (steps cfg0 initConn
      [.resolved [7], .connectOk, .handshakeReply 2, .startTransfer [9],
       .writeProgress 2]).bytesRead
      = (steps cfg0 initConn
      [.resolved [7], .connectOk, .handshakeReply 2, .startTransfer [9],
       .writeProgress 2]).bytesToRead) :=
  byte_counter_invariants cfg0
    (steps cfg0 initConn
      [.resolved [7], .connectOk, .handshakeReply 2, .startTransfer [9],
       .writeProgress 2]) ⟨_, rfl⟩

/-! ### C6 -/

/-- C6: cancelling while an operation is in flight moves the connection to
the terminal cancelled state (unusable for further transfers), and the next
`poll()` counts the aborted in-flight step as exactly one completed
operation instead of surfacing an error: `poll` catches the
`operation_aborted` system error and returns 1, while any other system
error is rethrown as `network_asio::error`. -/
theorem cancel_aborted_counted_as_progress (cfg : NetConfig) (s : Conn)
    (aborted ec : ErrorCode) (hin : isInFlight s.status = true) :
    (step cfg s .cancelEv).status = .cancelled ∧
    (∀ e, step cfg (step cfg s .cancelEv) e = step cfg s .cancelEv) ∧
    connection.poll aborted (.sysErr aborted) = .ok 1 ∧
    (¬(ec.cat = aborted.cat ∧ ec.val = aborted.val) →
      connection.poll aborted (.sysErr ec) = .error (network_asio.error ec)) := by
  have hcan : (step cfg s .cancelEv).status = .cancelled := by
    obtain ⟨st, sock, dn, btw, bw, btr, br, att, al, wc, rc⟩ := s
    rcases st <;> simp_all [isInFlight]
    all_goals try rfl
    all_goals (rename_i cur rest; rcases rest <;> rfl)
  refine ⟨hcan, fun e => step_terminal cfg _ e (Or.inl hcan), ?_, fun hne => ?_⟩
  · simp [connection.poll]
  · simp [connection.poll, hne]

/-- Witness for C6: cancel fired while the frame write is in flight; the
aborted code is counted as one completed operation and a distinct
end-of-file code still surfaces as a `network_asio::error`. -/
theorem cancel_aborted_counted_as_progress_witness :
    (step cfg0 (steps cfg0 initConn
        [.resolved [7], .connectOk, .handshakeReply 2, .startTransfer [9]])
        .cancelEv).status = .cancelled ∧
    step cfg0 (step cfg0 (steps cfg0 initConn
        [.resolved [7], .connectOk, .handshakeReply 2, .startTransfer [9]])
        .cancelEv) (.startTransfer [1]) =
      step cfg0 (steps cfg0 initConn
        [.resolved [7], .connectOk, .handshakeReply 2, .startTransfer [9]])
        .cancelEv ∧
    connection.poll ⟨2, 125, "Operation canceled"⟩
        (.sysErr ⟨2, 125, "Operation canceled"⟩) = .ok 1 ∧
    connection.poll ⟨2, 125, "Operation canceled"⟩ (.sysErr ⟨1, 2, "End of file"⟩)
      = .error (network_asio.error ⟨1, 2, "End of file"⟩) := by
  have h := cancel_aborted_counted_as_progress cfg0
    (steps cfg0 initConn [.resolved [7], .connectOk, .handshakeReply 2, .startTransfer [9]])
    ⟨2, 125, "Operation canceled"⟩ ⟨1, 2, "End of file"⟩ (by decide)
  exact ⟨h.1, h.2.1 (.startTransfer [1]), h.2.2.1, h.2.2.2 (by decide)⟩

/-! ### C7 -/

/-- C7 counterexample: `network_asio::error` stores only the rendered
message, so two transport error codes of different kinds (category 1 value
2 versus category 3 value 4) that happen to render the same text map to
identical error values — the kind is not carried by the tagged error. -/
theorem error_kind_not_carried :
    network_asio.error ⟨1, 2, "end of file"⟩ = network_asio.error ⟨3, 4, "end of file"⟩ ∧
    ((1, 2) : Nat × Nat) ≠ ((3, 4) : Nat × Nat) :=
  ⟨rfl, by decide⟩

/-- C7 as amended: every low-level failure escaping `poll()` surfaces as the
single error type `network_asio::error`, which carries only the
human-readable message of the transport error — the error kind is not
stored (codes with equal messages become equal errors) — and the raw
transport error code is never propagated: a non-aborted system error is
rethrown as `network_asio::error`. -/
theorem errors_surface_as_message_only (aborted ec : ErrorCode) :
    network_asio.error ec = ⟨ec.msg⟩ ∧
    (∀ ec2 : ErrorCode, ec.msg = ec2.msg → network_asio.error ec = network_asio.error ec2) ∧
    (¬(ec.cat = aborted.cat ∧ ec.val = aborted.val) →
      connection.poll aborted (.sysErr ec) = .error (network_asio.error ec)) ∧
    (∀ n, connection.poll aborted (.ok n) = .ok n) := by
  refine ⟨rfl, fun ec2 hmsg => ?_, fun hne => ?_, fun n => rfl⟩
  · simp [network_asio.error, hmsg]
  · simp [connection.poll, hne]

/-- Witness for C7 (amended) at concrete error codes. -/
theorem errors_surface_as_message_only_witness :
    network_asio.error ⟨1, 2, "End of file"⟩ = ⟨"End of file"⟩ ∧
    network_asio.error ⟨1, 2, "End of file"⟩ = network_asio.error ⟨9, 9, "End of file"⟩ ∧
    connection.poll ⟨2, 125, "Operation canceled"⟩ (.sysErr ⟨1, 2, "End of file"⟩)
      = .error (network_asio.error ⟨1, 2, "End of file"⟩) ∧
    connection.poll ⟨2, 125, "Operation canceled"⟩ (.ok 3) = .ok 3 := by
  have h := errors_surface_as_message_only ⟨2, 125, "Operation canceled"⟩ ⟨1, 2, "End of file"⟩
  exact ⟨h.1, h.2.1 ⟨9, 9, "End of file"⟩ rfl, h.2.2.1 (by decide), h.2.2.2 3⟩

/-! ### C8 -/

/-- From a connecting state, a refusal per remaining candidate walks the
candidate list in order, recording one attempt per candidate, and ends in
`failed ConnectionError` once the list is exhausted. -/
theorem connectRefused_run (cfg : NetConfig) (rest : List Nat) (s : Conn) (cur : Nat)
    (hst : s.status = .connecting cur rest) :
    (steps cfg s (List.replicate (rest.length + 1) .connectRefused)).status
      = .failed .ConnectionError ∧
    (steps cfg s (List.replicate (rest.length + 1) .connectRefused)).attempts
      = s.attempts ++ rest := by
  induction rest generalizing s cur with
  | nil =>
      obtain ⟨st, sock, dn, btw, bw, btr, br, att, al, wc, rc⟩ := s
      simp only at hst
      subst hst
      refine ⟨rfl, ?_⟩
      simp only [List.length_nil, List.append_nil, List.replicate_succ,
        List.replicate_zero, steps, List.foldl_cons, List.foldl_nil]
      rfl
  | cons c rest ih =>
      obtain ⟨st, sock, dn, btw, bw, btr, br, att, al, wc, rc⟩ := s
      simp only at hst
      subst hst
      have hstep : step cfg
          ⟨.connecting cur (c :: rest), sock, dn, btw, bw, btr, br, att, al, wc, rc⟩
          .connectRefused =
          ⟨.connecting c rest, sock, dn, btw, bw, btr, br, att ++ [c], al, wc, rc⟩ := rfl
      have hrep : List.replicate ((c :: rest).length + 1) Event.connectRefused
          = Event.connectRefused :: List.replicate (rest.length + 1) Event.connectRefused := by
        simp [List.replicate_succ]
      rw [hrep]
      simp only [steps, List.foldl_cons, hstep]
      have := ih ⟨.connecting c rest, sock, dn, btw, bw, btr, br, att ++ [c], al, wc, rc⟩ c rfl
      simp only [steps] at this
      refine ⟨this.1, ?_⟩
      rw [this.2]
      simp

/-- C8: if resolution yields a non-empty candidate list and every candidate
refuses the connection, the connection attempts a connect to each candidate
exactly once, in resolver order (the attempt log equals the candidate
list), and then fails with `ConnectionError`. -/
theorem all_candidates_refused_connection_error (cfg : NetConfig) (results : List Nat)
    (hne : results ≠ []) :
    (steps cfg initConn
        (.resolved results :: List.replicate results.length .connectRefused)).status
      = .failed .ConnectionError ∧
    (steps cfg initConn
        (.resolved results :: List.replicate results.length .connectRefused)).attempts
      = results := by
  match results, hne with
  | c :: rest, _ =>
      have hstep : step cfg initConn (.resolved (c :: rest)) =
          ⟨.connecting c rest, .unset, false, 0, 0, 0, 0, [c], [], false, false⟩ := rfl
      simp only [steps, List.foldl_cons, List.length_cons, hstep]
      have := connectRefused_run cfg rest
        ⟨.connecting c rest, .unset, false, 0, 0, 0, 0, [c], [], false, false⟩ c rfl
      simp only [steps] at this
      exact ⟨this.1, by rw [this.2]; simp⟩

/-- Witness for C8: both resolved candidates 7 and 8 refuse; the connection
tried exactly them in order and failed with `ConnectionError`. -/
theorem all_candidates_refused_connection_error_witness :
    (steps cfg0 initConn
        (.resolved [7, 8] :: List.replicate 2 .connectRefused)).status
      = .failed .ConnectionError ∧
    (steps cfg0 initConn
        (.resolved [7, 8] :: List.replicate 2 .connectRefused)).attempts = [7, 8] := by
  have h := all_candidates_refused_connection_error cfg0 [7, 8] (by decide)
  simpa using h

/-! ### C9 -/

/-- C9: `using_tls()` has precondition `done()`: in every state where
`done()` is false the internal assertion fires (modelled as `none`), and in
every state where `done()` holds the call returns a value without the
assertion firing. -/
theorem using_tls_requires_done (s : Conn) :
    (done s = false → using_tls s = none) ∧
    (done s = true → (using_tls s).isSome = true) := by
  constructor
  · intro h
    simp [using_tls, done] at h ⊢
    simp [h]
  · intro h
    simp [done] at h
    simp [using_tls, h]

/-- Witness for C9: the fresh connection (not done) trips the assertion; an
idle connection after the handshake (done) answers. -/
theorem using_tls_requires_done_witness :
    using_tls initConn = none ∧ (using_tls idleConn).isSome = true :=
  ⟨(using_tls_requires_done initConn).1 rfl, (using_tls_requires_done idleConn).2 rfl⟩

/-! ### C10: the stub connection of the build without asio -/

namespace stub

/-- Embedding of the stub `network_asio::connection` of `network_asio.hpp`
lines 188-202 (the build without `HAVE_ASIO`): none of its member functions
reads or writes any member state, so the object state is `Unit`. -/
inductive Call where
  | transferCall
  | pollCall
  | runCall
  | cancelCall
  deriving DecidableEq, Repr

/-- Each stub member function body is empty, so a call leaves the (empty)
object state unchanged. -/
def afterCall (u : Unit) (_ : Call) : Unit := u

/-- The object state after an arbitrary sequence of calls. -/
def runCalls (cs : List Call) : Unit := cs.foldl afterCall ()

/-- Stub `done()`: `{ return false; }`. -/
def done (_ : Unit) : Bool := false

/-- Stub `using_tls()`: `{ return false; }`. -/
def using_tls (_ : Unit) : Bool := false

/-- Stub `poll()`: `{ return 0; }`. -/
def poll (_ : Unit) : Nat := 0

/-- Stub `bytes_to_write()`: `{ return 0; }`. -/
def bytes_to_write (_ : Unit) : Nat := 0

/-- Stub `bytes_written()`: `{ return 0; }`. -/
def bytes_written (_ : Unit) : Nat := 0

/-- Stub `bytes_to_read()`: `{ return 0; }`. -/
def bytes_to_read (_ : Unit) : Nat := 0

/-- Stub `bytes_read()`: `{ return 0; }`. -/
def bytes_read (_ : Unit) : Nat := 0

/-- Stub `transfer(request, response) {}`: the value of `response` after the
call, which the empty body leaves unchanged. -/
def transfer {Config : Type} (_ : Unit) (_request : Config) (response : Config) : Config :=
  response

end stub

/-- C10: in the build without the asio backend the stub connection never
makes progress: after every sequence of calls, `done()` and `using_tls()`
are false, `poll()` returns 0, all four byte counters are 0, and `transfer`
leaves the response object unchanged. -/
theorem stub_connection_inert (cs : List stub.Call) (Config : Type)
    (request response : Config) :
    stub.done (stub.runCalls cs) = false ∧
    stub.using_tls (stub.runCalls cs) = false ∧
    stub.poll (stub.runCalls cs) = 0 ∧
    stub.bytes_to_write (stub.runCalls cs) = 0 ∧
    stub.bytes_written (stub.runCalls cs) = 0 ∧
    stub.bytes_to_read (stub.runCalls cs) = 0 ∧
    stub.bytes_read (stub.runCalls cs) = 0 ∧
    stub.transfer (stub.runCalls cs) request response = response :=
  ⟨rfl, rfl, rfl, rfl, rfl, rfl, rfl, rfl⟩
